import Mathlib

/-
Verification of the counterfactual-communication simulation
(`counterfactual_simulation.py`): a shallow embedding of the
`CounterfactualCommunication` class and theorems about its gate sequence,
state evolution, leakage formula and result analysis.

All gates appearing in the program (Qiskit `ry` and `x` on one qubit) have
real matrices and the initial statevector is (1, 0), so every reachable
statevector has real components; amplitudes are therefore modelled as real
numbers, and the squared magnitude of an amplitude a is a ^ 2.
-/

open Real

/-- A two-amplitude statevector: amplitude of basis state 0 (horizontal) and
of basis state 1 (vertical). -/
structure QState where
  a0 : ℝ
  a1 : ℝ

/-- The single-qubit gates the program applies: `ry θ` is Qiskit `qc.ry(θ, 0)`
and `x` is the Pauli-X `qc.x(0)`. Barriers are visual markers with no action
on the state and are not modelled. -/
inductive Gate where
  | ry (angle : ℝ)
  | x

/-- `np.pi / (4 * k)`: the formula computing both `self.theta_M` (with `k = M`)
and `self.theta_N` (with `k = N`) in `CounterfactualCommunication.__init__`. -/
noncomputable def thetaAngle (k : ℕ) : ℝ := π / (4 * k)

/-- `(np.pi / (16 * M * N)) ** 2`: `self.leakage_prob` set in `__init__`. -/
noncomputable def leakage_prob (M N : ℕ) : ℝ := (π / (16 * M * N)) ^ 2

/-- The fields stored on the instance by `CounterfactualCommunication.__init__`. -/
structure CCConfig where
  M : ℤ
  N : ℤ
  theta_M : ℝ
  theta_N : ℝ
  leak : ℝ

/-- `CounterfactualCommunication.__init__(M, N)`. The only way construction can
fail is a `ZeroDivisionError` in one of the three divisions `np.pi / (4*M)`,
`np.pi / (4*N)`, `(np.pi / (16*M*N)) ** 2`; a raised exception is modelled as
`none`. No validation of M or N is performed beyond these incidental
divisions (negative values are accepted). -/
noncomputable def ccInit (M N : ℤ) : Option CCConfig :=
  if (4 * M : ℤ) = 0 then none
  else if (4 * N : ℤ) = 0 then none
  else if (16 * M * N : ℤ) = 0 then none
  else some ⟨M, N, π / (4 * (M : ℝ)), π / (4 * (N : ℝ)), (π / (16 * (M : ℝ) * (N : ℝ))) ^ 2⟩

/-- The gate list appended by `create_circuit(bob_blocks)`: M outer-forward
rotations, N inner-forward rotations with an `x` appended immediately after the
rotation of iteration `cycle == N // 2` when `bob_blocks`, N inner-return
rotations, M outer-return rotations. (Barriers and the optional final
measurement act trivially on the statevector and are omitted.) -/
noncomputable def createGates (M N : ℕ) (bob_blocks : Bool) : List Gate :=
  ((List.range M).map fun _ => Gate.ry (2 * thetaAngle M)) ++
  ((List.range N).flatMap fun cycle =>
    Gate.ry (2 * thetaAngle N) ::
      (if cycle = N / 2 ∧ bob_blocks = true then [Gate.x] else [])) ++
  ((List.range N).map fun _ => Gate.ry (-(2 * thetaAngle N))) ++
  ((List.range M).map fun _ => Gate.ry (-(2 * thetaAngle M)))

/-- Action of one gate on a statevector, from the standard single-qubit
matrices Qiskit uses: `RY(θ) = [[cos(θ/2), -sin(θ/2)], [sin(θ/2), cos(θ/2)]]`
and `X = [[0, 1], [1, 0]]`. -/
noncomputable def applyGate : Gate → QState → QState
  | Gate.ry θ, s =>
      ⟨Real.cos (θ / 2) * s.a0 - Real.sin (θ / 2) * s.a1,
       Real.sin (θ / 2) * s.a0 + Real.cos (θ / 2) * s.a1⟩
  | Gate.x, s => ⟨s.a1, s.a0⟩

/-- Apply a list of gates in order (the statevector of a circuit that is the
concatenation of those gates). -/
noncomputable def applyGates (s : QState) (gs : List Gate) : QState :=
  gs.foldl (fun t g => applyGate g t) s

/-- The statevector of the empty circuit `QuantumCircuit(1)`: amplitude 1 on
basis state 0. -/
def initState : QState := ⟨1, 0⟩

/-- The gates added during one loop iteration of `get_state_evolution`:
each iteration adds one `ry`, and the blocking iteration (`cycle == N // 2`
with `bob_blocks`) adds `ry` then `x` before the Statevector snapshot is
taken. -/
noncomputable def stepGates (M N : ℕ) (bob_blocks : Bool) : List (List Gate) :=
  ((List.range M).map fun _ => [Gate.ry (2 * thetaAngle M)]) ++
  ((List.range N).map fun cycle =>
    if cycle = N / 2 ∧ bob_blocks = true
    then [Gate.ry (2 * thetaAngle N), Gate.x]
    else [Gate.ry (2 * thetaAngle N)]) ++
  ((List.range N).map fun _ => [Gate.ry (-(2 * thetaAngle N))]) ++
  ((List.range M).map fun _ => [Gate.ry (-(2 * thetaAngle M))])

/-- `get_state_evolution(bob_blocks)`: the initial statevector followed by one
snapshot per loop iteration (the Python rebuilds the Statevector of the
accumulated circuit after each iteration). -/
noncomputable def get_state_evolution (M N : ℕ) (bob_blocks : Bool) : List QState :=
  (stepGates M N bob_blocks).scanl applyGates initState

/-- The final entry of the state-evolution trajectory (the trajectory is never
empty, so the default is never used). -/
noncomputable def finalState (M N : ℕ) (bob_blocks : Bool) : QState :=
  (get_state_evolution M N bob_blocks).getLastD initState

/-- `analyze_results(counts, shots)`: returns `(h_count, v_count)` computed by
`counts.get('0', 0)` and `counts.get('1', 0)` (missing keys default to 0);
the percentage prints divide by `shots`, so `shots == 0` raises
`ZeroDivisionError`, modelled as `none`. -/
def analyze_results (counts : List (String × ℕ)) (shots : ℕ) : Option (ℕ × ℕ) :=
  if shots = 0 then none
  else some ((counts.lookup "0").getD 0, (counts.lookup "1").getD 0)

/-- A statevector lying at angle α on the real unit circle; every statevector
reachable in this protocol has this form. -/
noncomputable def rotState (α : ℝ) : QState := ⟨Real.cos α, Real.sin α⟩

/-- The squared norm |amp0|² + |amp1|² of a (real-amplitude) statevector. -/
noncomputable def norm2 (s : QState) : ℝ := s.a0 ^ 2 + s.a1 ^ 2

/-- The signed rotation angle carried by a gate (0 for the flip). -/
noncomputable def gateAngle : Gate → ℝ
  | Gate.ry θ => θ
  | Gate.x => 0

/-- Every entry of a trajectory is normalized: |amp0|² + |amp1|² = 1. -/
noncomputable def normTraj (l : List QState) : Prop := ∀ s ∈ l, norm2 s = 1

/-- The gate sequence has the structure stated by the specification: M
outer-forward rotations of +2θ_M; N inner-forward rotations of +2θ_N with —
in the block case only — exactly one flip immediately after the rotation at
zero-based index N/2; N inner-return rotations of −2θ_N; M outer-return
rotations of −2θ_M; and no flip anywhere in the pass case. -/
noncomputable def gateSeqOK (M N : ℕ) : Prop :=
  createGates M N true =
      List.replicate M (Gate.ry (2 * thetaAngle M)) ++
      List.replicate (N / 2 + 1) (Gate.ry (2 * thetaAngle N)) ++
      [Gate.x] ++
      List.replicate (N - 1 - N / 2) (Gate.ry (2 * thetaAngle N)) ++
      List.replicate N (Gate.ry (-(2 * thetaAngle N))) ++
      List.replicate M (Gate.ry (-(2 * thetaAngle M))) ∧
  createGates M N false =
      List.replicate M (Gate.ry (2 * thetaAngle M)) ++
      List.replicate N (Gate.ry (2 * thetaAngle N)) ++
      List.replicate N (Gate.ry (-(2 * thetaAngle N))) ++
      List.replicate M (Gate.ry (-(2 * thetaAngle M))) ∧
  ∀ g ∈ createGates M N false, g ≠ Gate.x

/- ===== helper lemmas: leakage ===== -/

lemma leakage_prob_comm (M N : ℕ) : leakage_prob M N = leakage_prob N M := by
  unfold leakage_prob
  ring_nf

lemma leakage_prob_lt (a b c : ℕ) (ha : 1 ≤ a) (hab : a < b) (hc : 1 ≤ c) :
    leakage_prob b c < leakage_prob a c := by
  unfold leakage_prob
  have ha' : (0 : ℝ) < a := by exact_mod_cast Nat.lt_of_lt_of_le Nat.zero_lt_one ha
  have hc' : (0 : ℝ) < c := by exact_mod_cast Nat.lt_of_lt_of_le Nat.zero_lt_one hc
  have hb' : (a : ℝ) < b := by exact_mod_cast hab
  have hA : (0 : ℝ) < 16 * a * c := by positivity
  have hAB : (16 : ℝ) * a * c < 16 * b * c := by nlinarith
  have hdiv : π / (16 * (b : ℝ) * c) < π / (16 * (a : ℝ) * c) :=
    div_lt_div_of_pos_left Real.pi_pos hA hAB
  have hnn : (0 : ℝ) ≤ π / (16 * (b : ℝ) * c) := by positivity
  exact pow_lt_pow_left₀ hdiv hnn (by norm_num)

/- ===== C6 ===== -/

/-- C6 counterexample: constructing a configuration with M = -1 (hence M < 1)
succeeds, refuting the claim that construction succeeds only when M ≥ 1 and
N ≥ 1 and that M < 1 is rejected with a validation error. -/
theorem ccInit_negative_succeeds_cex : (ccInit (-1) 4).isSome = true := by
  norm_num [ccInit]

/-- C6 amended: `__init__` performs no validation; construction fails only via
the incidental `ZeroDivisionError` when M = 0 or N = 0, and succeeds for every
other pair of integers, including negative ones. -/
theorem ccInit_isSome_iff (M N : ℤ) : (ccInit M N).isSome = true ↔ (M ≠ 0 ∧ N ≠ 0) := by
  unfold ccInit
  rcases eq_or_ne M 0 with hM | hM
  · subst hM
    simp
  · rcases eq_or_ne N 0 with hN | hN
    · subst hN
      simp
    · have h1 : (4 * M : ℤ) ≠ 0 := mul_ne_zero (by norm_num) hM
      have h2 : (4 * N : ℤ) ≠ 0 := mul_ne_zero (by norm_num) hN
      have h3 : (16 * M * N : ℤ) ≠ 0 :=
        mul_ne_zero (mul_ne_zero (by norm_num) hM) hN
      simp [h1, h2, h3, hM, hN]

/- ===== C7 ===== -/

/-- C7: the theoretical leakage probability strictly decreases as M increases
with N fixed, and strictly decreases as N increases with M fixed. -/
theorem leakage_strict_decreasing (M₁ M₂ N₁ N₂ : ℕ)
    (hM : 1 ≤ M₁) (hN : 1 ≤ N₁) (hMM : M₁ < M₂) (hNN : N₁ < N₂) :
    leakage_prob M₂ N₁ < leakage_prob M₁ N₁ ∧
    leakage_prob M₁ N₂ < leakage_prob M₁ N₁ := by
  constructor
  · exact leakage_prob_lt M₁ M₂ N₁ hM hMM hN
  · rw [leakage_prob_comm M₁ N₂, leakage_prob_comm M₁ N₁]
    exact leakage_prob_lt N₁ N₂ M₁ hN hNN hM

/-- C7 witness: instantiation at M₁ = 2, M₂ = 4, N₁ = 4, N₂ = 8. -/
theorem leakage_strict_decreasing_w :
    leakage_prob 4 4 < leakage_prob 2 4 ∧ leakage_prob 2 8 < leakage_prob 2 4 :=
  leakage_strict_decreasing 2 4 4 8 (by decide) (by decide) (by decide) (by decide)

/- ===== C8 ===== -/

/-- C8: for M ≥ 1 and N ≥ 1 construction succeeds and the stored theoretical
leakage probability equals (π/(16·M·N))² exactly; it is computed in `__init__`
from M and N alone (the control decision `bob_blocks` is not a parameter of
`__init__` and no simulated trajectory exists yet at construction time), and it
coincides with the configuration-only function `leakage_prob M N`. -/
theorem leakage_formula (M N : ℕ) (hM : 1 ≤ M) (hN : 1 ≤ N) :
    ∃ c, ccInit (M : ℤ) (N : ℤ) = some c ∧
      c.leak = (π / (16 * (M : ℝ) * (N : ℝ))) ^ 2 ∧
      c.leak = leakage_prob M N := by
  have hM' : ((M : ℤ)) ≠ 0 := by omega
  have hN' : ((N : ℤ)) ≠ 0 := by omega
  have h1 : (4 * (M : ℤ)) ≠ 0 := mul_ne_zero (by norm_num) hM'
  have h2 : (4 * (N : ℤ)) ≠ 0 := mul_ne_zero (by norm_num) hN'
  have h3 : (16 * (M : ℤ) * (N : ℤ)) ≠ 0 :=
    mul_ne_zero (mul_ne_zero (by norm_num) hM') hN'
  refine ⟨⟨(M : ℤ), (N : ℤ), π / (4 * ((M : ℤ) : ℝ)), π / (4 * ((N : ℤ) : ℝ)),
      (π / (16 * ((M : ℤ) : ℝ) * ((N : ℤ) : ℝ))) ^ 2⟩, ?_, ?_, ?_⟩
  · unfold ccInit
    rw [if_neg h1, if_neg h2, if_neg h3]
  · push_cast
    ring
  · unfold leakage_prob
    push_cast
    ring

/-- C8 witness: instantiation at M = 4, N = 4. -/
theorem leakage_formula_w :
    ∃ c, ccInit (4 : ℤ) (4 : ℤ) = some c ∧
      c.leak = (π / (16 * ((4 : ℕ) : ℝ) * ((4 : ℕ) : ℝ))) ^ 2 ∧
      c.leak = leakage_prob 4 4 :=
  leakage_formula 4 4 (by decide) (by decide)

/- ===== C10 ===== -/

/-- C10: `analyze_results` is total on any counts mapping (for a valid shot
count): it returns `(count of "0", count of "1")` with missing outcome labels
treated as count 0, and on the empty mapping it returns `(0, 0)`. -/
theorem analyze_results_total (counts : List (String × ℕ)) (shots : ℕ) (h : shots ≠ 0) :
    (analyze_results counts shots).isSome = true ∧
    analyze_results counts shots =
      some ((counts.lookup "0").getD 0, (counts.lookup "1").getD 0) ∧
    analyze_results [] shots = some (0, 0) := by
  refine ⟨?_, ?_, ?_⟩ <;> simp [analyze_results, h]

/-- C10 witness: instantiation at the empty counts mapping with 1000 shots. -/
theorem analyze_results_total_w :
    (analyze_results [] 1000).isSome = true ∧
    analyze_results [] 1000 =
      some ((List.lookup "0" ([] : List (String × ℕ))).getD 0,
            (List.lookup "1" ([] : List (String × ℕ))).getD 0) ∧
    analyze_results [] 1000 = some (0, 0) :=
  analyze_results_total [] 1000 (by decide)

/- ===== helper lemmas: gate-sequence structure ===== -/

lemma flatMap_congr_mem {α β : Type} (l : List α) (f g : α → List β)
    (h : ∀ x ∈ l, f x = g x) : l.flatMap f = l.flatMap g := by
  induction l with
  | nil => rfl
  | cons x xs ih =>
      simp only [List.flatMap_cons]
      rw [h x (by simp), ih (fun y hy => h y (by simp [hy]))]

lemma range_map_const {α : Type} (n : ℕ) (b : α) :
    (List.range n).map (fun _ => b) = List.replicate n b := by
  induction n with
  | zero => simp
  | succ m ih =>
      rw [List.range_succ, List.map_append, ih, List.replicate_succ']
      simp

lemma range_flatMap_const {α : Type} (n : ℕ) (g : α) :
    ((List.range n).flatMap fun _ => [g]) = List.replicate n g := by
  induction n with
  | zero => simp
  | succ m ih =>
      rw [List.range_succ, List.flatMap_append, ih, List.replicate_succ']
      simp

lemma range_flatMap_mid {α : Type} (n k : ℕ) (hk : k < n) (a b : α) :
    ((List.range n).flatMap fun c => a :: (if c = k then [b] else [])) =
      List.replicate (k + 1) a ++ [b] ++ List.replicate (n - 1 - k) a := by
  have hL : List.range n = List.range (k + 1) ++ (List.range (n - (k + 1))).map (k + 1 + ·) := by
    rw [← List.range_add]
    congr 1
    omega
  rw [hL, List.flatMap_append, List.flatMap_map]
  have hfirst : ((List.range (k + 1)).flatMap fun c => a :: (if c = k then [b] else [])) =
      List.replicate k a ++ [a, b] := by
    rw [List.range_succ, List.flatMap_append]
    have h1 : ((List.range k).flatMap fun c => a :: (if c = k then [b] else [])) =
        List.replicate k a := by
      rw [flatMap_congr_mem _ _ (fun _ => [a])
        (by intro x hx; simp at hx; simp [Nat.ne_of_lt hx])]
      exact range_flatMap_const k a
    rw [h1]
    simp
  have hsecond : ((List.range (n - (k + 1))).flatMap
      fun c => a :: (if k + 1 + c = k then [b] else [])) =
      List.replicate (n - (k + 1)) a := by
    rw [flatMap_congr_mem _ _ (fun _ => [a])
      (by intro x hx; have hxx : k + 1 + x ≠ k := (by omega); simp [hxx])]
    exact range_flatMap_const _ a
  rw [hfirst, hsecond]
  have h3 : n - 1 - k = n - (k + 1) := by omega
  rw [h3, List.replicate_succ']
  simp [List.append_assoc]

lemma createGates_pass (M N : ℕ) :
    createGates M N false =
      List.replicate M (Gate.ry (2 * thetaAngle M)) ++
      List.replicate N (Gate.ry (2 * thetaAngle N)) ++
      List.replicate N (Gate.ry (-(2 * thetaAngle N))) ++
      List.replicate M (Gate.ry (-(2 * thetaAngle M))) := by
  unfold createGates
  rw [flatMap_congr_mem _ _ (fun _ => [Gate.ry (2 * thetaAngle N)]) (by intro x _; simp)]
  rw [range_flatMap_const, range_map_const, range_map_const, range_map_const]

lemma createGates_block (M N : ℕ) (hN : 1 ≤ N) :
    createGates M N true =
      List.replicate M (Gate.ry (2 * thetaAngle M)) ++
      List.replicate (N / 2 + 1) (Gate.ry (2 * thetaAngle N)) ++
      [Gate.x] ++
      List.replicate (N - 1 - N / 2) (Gate.ry (2 * thetaAngle N)) ++
      List.replicate N (Gate.ry (-(2 * thetaAngle N))) ++
      List.replicate M (Gate.ry (-(2 * thetaAngle M))) := by
  unfold createGates
  rw [flatMap_congr_mem _ _
    (fun c => Gate.ry (2 * thetaAngle N) :: (if c = N / 2 then [Gate.x] else []))
    (by intro x _; simp)]
  rw [range_flatMap_mid N (N / 2) (Nat.div_lt_self (by omega) one_lt_two) _ Gate.x]
  rw [range_map_const, range_map_const, range_map_const]
  simp [List.append_assoc]

/- ===== C3 ===== -/

/-- C3: for every M ≥ 1, N ≥ 1 the built gate sequence is M rotations of
+2θ_M, then N rotations of +2θ_N with — only when blocking — exactly one flip
inserted immediately after the inner-forward rotation at zero-based index
N/2 (floor division), then N rotations of −2θ_N with no flip, then M rotations
of −2θ_M; when passing the sequence contains no flip anywhere. -/
theorem gate_sequence_structure (M N : ℕ) (hM : 1 ≤ M) (hN : 1 ≤ N) : gateSeqOK M N := by
  refine ⟨createGates_block M N hN, createGates_pass M N, ?_⟩
  intro g hg hx
  subst hx
  rw [createGates_pass M N] at hg
  simp [List.mem_append, List.mem_replicate] at hg

/-- C3 witness: instantiation at M = 2, N = 3 (odd N: flip after inner index 1). -/
theorem gate_sequence_structure_w : gateSeqOK 2 3 :=
  gate_sequence_structure 2 3 (by decide) (by decide)

/- ===== C2 ===== -/

/-- C2 counterexample: for M = 1, N = 1 with blocking, the trajectory has 5
entries while the gate sequence has 5 gates, so the trajectory length is not
|gates| + 1: the flip does not append its own trajectory entry (it lands in
the same snapshot as the midpoint rotation). -/
theorem trajectory_flip_entry_cex :
    (get_state_evolution 1 1 true).length ≠ (createGates 1 1 true).length + 1 := by
  have h1 : (get_state_evolution 1 1 true).length = 5 := by
    unfold get_state_evolution
    rw [List.length_scanl]
    unfold stepGates
    simp
  have h2 : (createGates 1 1 true).length = 5 := by
    rw [createGates_block 1 1 (by norm_num)]
    simp
  omega

/-- C2 amended: every loop iteration (not every gate) appends exactly one
trajectory entry, so the trajectory always has 2M + 2N + 1 entries; this is
|gates| + 1 in the pass scenario but equals |gates| in the block scenario,
where the flip shares the midpoint rotation's snapshot. -/
theorem trajectory_length_amended (M N : ℕ) (b : Bool) (hM : 1 ≤ M) (hN : 1 ≤ N) :
    (get_state_evolution M N b).length = 2 * M + 2 * N + 1 ∧
    (createGates M N b).length = (if b = true then 2 * M + 2 * N + 1 else 2 * M + 2 * N) ∧
    (get_state_evolution M N b).length =
      (createGates M N b).length + (if b = true then 0 else 1) := by
  have hlt : (get_state_evolution M N b).length = 2 * M + 2 * N + 1 := by
    unfold get_state_evolution
    rw [List.length_scanl]
    unfold stepGates
    simp
    omega
  have hgl : (createGates M N b).length =
      (if b = true then 2 * M + 2 * N + 1 else 2 * M + 2 * N) := by
    cases b
    · rw [createGates_pass M N]
      simp
      omega
    · rw [createGates_block M N hN]
      have hd : N / 2 < N := Nat.div_lt_self (by omega) one_lt_two
      simp
      omega
  refine ⟨hlt, hgl, ?_⟩
  rw [hlt, hgl]
  cases b <;> simp

/-- C2 amended witness: instantiation at M = 1, N = 1, blocking. -/
theorem trajectory_length_amended_w :
    (get_state_evolution 1 1 true).length = 2 * 1 + 2 * 1 + 1 ∧
    (createGates 1 1 true).length = (if true = true then 2 * 1 + 2 * 1 + 1 else 2 * 1 + 2 * 1) ∧
    (get_state_evolution 1 1 true).length =
      (createGates 1 1 true).length + (if true = true then 0 else 1) :=
  trajectory_length_amended 1 1 true (by decide) (by decide)

/- ===== helper lemmas: state evolution ===== -/

lemma applyGates_nil (s : QState) : applyGates s [] = s := rfl

lemma applyGates_cons (s : QState) (g : Gate) (gs : List Gate) :
    applyGates s (g :: gs) = applyGates (applyGate g s) gs := rfl

lemma applyGates_append (s : QState) (l₁ l₂ : List Gate) :
    applyGates s (l₁ ++ l₂) = applyGates (applyGates s l₁) l₂ := by
  unfold applyGates
  exact List.foldl_append _ _ _ _

lemma applyGate_ry_rot (θ α : ℝ) :
    applyGate (Gate.ry θ) (rotState α) = rotState (θ / 2 + α) := by
  simp only [applyGate, rotState, QState.mk.injEq]
  constructor
  · rw [Real.cos_add]
  · rw [Real.sin_add]

lemma applyGate_x_rot (α : ℝ) :
    applyGate Gate.x (rotState α) = rotState (π / 2 - α) := by
  simp only [applyGate, rotState, QState.mk.injEq, Real.cos_pi_div_two_sub,
    Real.sin_pi_div_two_sub]

lemma initState_rot : initState = rotState 0 := by
  simp [initState, rotState]

lemma applyGates_replicate_ry (n : ℕ) (θ α : ℝ) :
    applyGates (rotState α) (List.replicate n (Gate.ry θ)) = rotState (n * (θ / 2) + α) := by
  induction n generalizing α with
  | zero =>
      rw [List.replicate_zero, applyGates_nil]
      congr 1
      push_cast
      ring
  | succ m ih =>
      rw [List.replicate_succ, applyGates_cons, applyGate_ry_rot, ih]
      congr 1
      push_cast
      ring

lemma applyGates_x (α : ℝ) :
    applyGates (rotState α) [Gate.x] = rotState (π / 2 - α) := by
  rw [applyGates_cons, applyGate_x_rot, applyGates_nil]

lemma norm2_applyGate (g : Gate) (s : QState) : norm2 (applyGate g s) = norm2 s := by
  cases g with
  | ry θ =>
      unfold norm2 applyGate
      linear_combination (s.a0 ^ 2 + s.a1 ^ 2) * Real.sin_sq_add_cos_sq (θ / 2)
  | x =>
      unfold norm2 applyGate
      ring

lemma norm2_applyGates (s : QState) (gs : List Gate) : norm2 (applyGates s gs) = norm2 s := by
  induction gs generalizing s with
  | nil => rfl
  | cons g gs ih => rw [applyGates_cons, ih, norm2_applyGate]

lemma scanl_invariant {α β : Type} (P : β → Prop) (f : β → α → β) (l : List α)
    (hf : ∀ s x, P s → P (f s x)) :
    ∀ b, P b → ∀ s ∈ List.scanl f b l, P s := by
  induction l with
  | nil =>
      intro b hb s hs
      rw [List.scanl_nil] at hs
      simp at hs
      rwa [hs]
  | cons x xs ih =>
      intro b hb s hs
      rw [List.scanl_cons] at hs
      simp only [List.singleton_append, List.mem_cons] at hs
      rcases hs with rfl | hs
      · exact hb
      · exact ih (f b x) (hf b x hb) s hs

lemma scanl_getLastD {α β : Type} (f : β → α → β) (l : List α) :
    ∀ b d, (List.scanl f b l).getLastD d = l.foldl f b := by
  induction l with
  | nil =>
      intro b d
      rw [List.scanl_nil]
      rfl
  | cons x xs ih =>
      intro b d
      rw [List.scanl_cons, List.singleton_append, List.getLastD_cons, ih, List.foldl_cons]

lemma foldl_applyGates (batches : List (List Gate)) :
    ∀ s, batches.foldl applyGates s = applyGates s batches.flatten := by
  induction batches with
  | nil => intro s; rfl
  | cons bgs rest ih =>
      intro s
      rw [List.foldl_cons, ih, List.flatten_cons, applyGates_append]

lemma flatten_map_eq_flatMap {α β : Type} (l : List α) (f : α → List β) :
    (l.map f).flatten = l.flatMap f := by
  induction l with
  | nil => rfl
  | cons x xs ih => simp [ih]

lemma flatten_replicate_singleton {α : Type} (n : ℕ) (a : α) :
    (List.replicate n ([a] : List α)).flatten = List.replicate n a := by
  induction n with
  | zero => rfl
  | succ m ih => simp [List.replicate_succ, ih]

lemma stepGates_flatten (M N : ℕ) (b : Bool) :
    (stepGates M N b).flatten = createGates M N b := by
  unfold stepGates createGates
  have hmid : ∀ c : ℕ,
      (if c = N / 2 ∧ b = true then [Gate.ry (2 * thetaAngle N), Gate.x]
       else [Gate.ry (2 * thetaAngle N)]) =
      Gate.ry (2 * thetaAngle N) :: (if c = N / 2 ∧ b = true then [Gate.x] else []) := by
    intro c
    split_ifs <;> rfl
  simp only [List.flatten_append, flatten_map_eq_flatMap, hmid, range_flatMap_const,
    range_map_const, flatten_replicate_singleton]

lemma finalState_eq (M N : ℕ) (b : Bool) :
    finalState M N b = applyGates initState (createGates M N b) := by
  unfold finalState get_state_evolution
  rw [scanl_getLastD, foldl_applyGates, stepGates_flatten]

lemma applyGates_pass (M N : ℕ) :
    applyGates initState (createGates M N false) = initState := by
  rw [createGates_pass, initState_rot]
  rw [applyGates_append, applyGates_append, applyGates_append]
  rw [applyGates_replicate_ry, applyGates_replicate_ry, applyGates_replicate_ry,
    applyGates_replicate_ry]
  congr 1
  ring

/- ===== C5 ===== -/

/-- C5: for every configuration and every entry of the state-evolution
trajectory, |amp0|² + |amp1|² = 1 exactly (over exact real arithmetic): every
gate application preserves normalization. -/
theorem trajectory_normalized (M N : ℕ) (b : Bool) (hM : 1 ≤ M) (hN : 1 ≤ N) :
    normTraj (get_state_evolution M N b) := by
  unfold normTraj get_state_evolution
  intro s hs
  refine scanl_invariant (fun t => norm2 t = 1) applyGates _ ?_ initState ?_ s hs
  · intro t batch ht
    rw [norm2_applyGates, ht]
  · unfold norm2 initState
    norm_num

/-- C5 witness: instantiation at M = 1, N = 1, blocking. -/
theorem trajectory_normalized_w : normTraj (get_state_evolution 1 1 true) :=
  trajectory_normalized 1 1 true (by decide) (by decide)

/- ===== C9 ===== -/

/-- C9: in the pass scenario the gate angles sum to zero and the composed
sequence is the identity on the initial state, so the final trajectory entry
equals the initial state exactly: amplitude 1 on basis state 0 and amplitude 0
on basis state 1, in exact real arithmetic. -/
theorem pass_identity_exact (M N : ℕ) (hM : 1 ≤ M) (hN : 1 ≤ N) :
    ((createGates M N false).map gateAngle).sum = 0 ∧
    finalState M N false = initState := by
  constructor
  · rw [createGates_pass]
    simp only [List.map_append, List.map_replicate, gateAngle, List.sum_append,
      List.sum_replicate, nsmul_eq_mul]
    ring
  · rw [finalState_eq]
    exact applyGates_pass M N

/-- C9 witness: instantiation at M = 1, N = 1. -/
theorem pass_identity_exact_w :
    ((createGates 1 1 false).map gateAngle).sum = 0 ∧
    finalState 1 1 false = initState :=
  pass_identity_exact 1 1 (by decide) (by decide)

/- ===== C4 ===== -/

/-- C4: for M = 4, N = 4 in the pass scenario the final trajectory entry has
P0 = 1 and P1 = 0 ≤ L = (π/(16·4·4))²: the claimed bound holds (with no slack
needed, since the identity is exact in real arithmetic). -/
theorem pass_final_within_bound :
    (finalState 4 4 false).a0 ^ 2 = 1 ∧
    (finalState 4 4 false).a1 ^ 2 ≤ leakage_prob 4 4 := by
  have h : finalState 4 4 false = initState := by
    rw [finalState_eq]
    exact applyGates_pass 4 4
  rw [h]
  refine ⟨by simp [initState], ?_⟩
  have h0 : initState.a1 ^ 2 = 0 := by simp [initState]
  rw [h0]
  unfold leakage_prob
  positivity

/- ===== helper lemmas: block scenario at M = 4, N = 4 ===== -/

lemma block_final_44 : finalState 4 4 true = rotState (-(3 * π / 8)) := by
  rw [finalState_eq, createGates_block 4 4 (by norm_num), initState_rot]
  have e1 : (4 : ℕ) / 2 + 1 = 3 := by norm_num
  have e2 : (4 : ℕ) - 1 - 4 / 2 = 1 := by norm_num
  rw [e1, e2]
  have h4 : thetaAngle 4 = π / 16 := by
    unfold thetaAngle
    norm_num
  rw [h4]
  rw [applyGates_append, applyGates_append, applyGates_append, applyGates_append,
    applyGates_append]
  rw [applyGates_replicate_ry, applyGates_replicate_ry, applyGates_x,
    applyGates_replicate_ry, applyGates_replicate_ry, applyGates_replicate_ry]
  congr 1
  push_cast
  ring

lemma sin_sq_pi_div_eight : Real.sin (π / 8) ^ 2 = (2 - Real.sqrt 2) / 4 := by
  rw [Real.sin_sq, Real.cos_pi_div_eight, div_pow,
    Real.sq_sqrt (by positivity : (0 : ℝ) ≤ 2 + Real.sqrt 2)]
  ring

lemma cos_sq_pi_div_eight : Real.cos (π / 8) ^ 2 = (2 + Real.sqrt 2) / 4 := by
  rw [Real.cos_pi_div_eight, div_pow,
    Real.sq_sqrt (by positivity : (0 : ℝ) ≤ 2 + Real.sqrt 2)]
  norm_num

/- ===== C1 ===== -/

/-- C1 counterexample: for M = 4, N = 4 with blocking, the final trajectory
entry has P0 = sin²(π/8) ≈ 0.146, which exceeds the theoretical leakage bound
L = (π/(16·4·4))² ≈ 1.5e-4 even with a generous slack of 0.01 added, so the
claim that P0 ≈ 0 within the bound is false on the code. -/
theorem block_final_exceeds_bound_cex :
    (finalState 4 4 true).a0 ^ 2 > leakage_prob 4 4 + 1 / 100 := by
  rw [block_final_44]
  show Real.cos (-(3 * π / 8)) ^ 2 > leakage_prob 4 4 + 1 / 100
  rw [Real.cos_neg, show 3 * π / 8 = π / 2 - π / 8 by ring, Real.cos_pi_div_two_sub,
    sin_sq_pi_div_eight]
  have hL : leakage_prob 4 4 = (π / 256) ^ 2 := by
    unfold leakage_prob
    norm_num
  rw [hL]
  have hs2 : Real.sqrt 2 < 1.5 := by
    rw [show (1.5 : ℝ) = 3 / 2 by norm_num, Real.sqrt_lt' (by norm_num)]
    norm_num
  have hpi : π < 3.15 := Real.pi_lt_d2
  have hpi0 : 0 < π := Real.pi_pos
  have h1 : (π / 256) ^ 2 < 0.000152 := by nlinarith
  have h2 : (2 - Real.sqrt 2) / 4 > 0.125 := by linarith
  linarith

/-- C1 amended: for M = 4, N = 4 with blocking, the final trajectory entry has
P0 = sin²(π/8) = (2−√2)/4 ≈ 0.146 and P1 = cos²(π/8) = (2+√2)/4 ≈ 0.854:
the flip sends most but not all probability to basis state 1, and neither
probability is within the theoretical leakage bound of its claimed limit. -/
theorem block_final_amplitudes :
    (finalState 4 4 true).a0 ^ 2 = (2 - Real.sqrt 2) / 4 ∧
    (finalState 4 4 true).a1 ^ 2 = (2 + Real.sqrt 2) / 4 := by
  rw [block_final_44]
  constructor
  · show Real.cos (-(3 * π / 8)) ^ 2 = (2 - Real.sqrt 2) / 4
    rw [Real.cos_neg, show 3 * π / 8 = π / 2 - π / 8 by ring, Real.cos_pi_div_two_sub,
      sin_sq_pi_div_eight]
  · show Real.sin (-(3 * π / 8)) ^ 2 = (2 + Real.sqrt 2) / 4
    rw [Real.sin_neg, neg_sq, show 3 * π / 8 = π / 2 - π / 8 by ring,
      Real.sin_pi_div_two_sub, cos_sq_pi_div_eight]
